import Mathlib

/-!
Shallow embedding of the recipe-extraction core of the `data_collection`
repository (src/src/recipes/mod.rs and src/src/utils.rs), together with
theorems settling the frozen claims about it.

Modelling conventions:
* The `select` crate's parsed documents are modelled by the `Html` tree below;
  `Node::find(pred)` enumerates the node's descendants in document order
  (depth-first pre-order, excluding the node itself), `Node::children()` is the
  direct child list, `Node::text()` concatenates descendant text nodes and
  `Node::attr` looks a key up in the attribute list.
* Rust `f32`/`f64` values are modelled as exact rationals (ℚ): the claims under
  study are about which slot/entry a number lands in and about exactly
  representable values such as 1.5 + 2.0 or 80 / 4, not about rounding.
  Division by zero (ℚ gives 0, IEEE gives ±inf/NaN) is never exercised by any
  theorem below.
* Fallible Rust code returning `Result` is modelled with `RResult`; a Rust
  `panic!` / `unwrap` / `expect` is the distinct `RResult.panic` outcome, kept
  separate from a returned `Err` because the spec's propagation claims hinge on
  that difference.
* `serde_json::Value` is the `Json` type below.  Objects produced by
  `serde_json::from_str` carry unique keys (the parser collapses duplicates
  into its map), so object lookup is first-occurrence lookup over an
  association list with unique keys.
* Rust machine integers are ℕ with explicit bounds where they matter
  (`u32::from_str` fails above `U32MAX`, modelled explicitly; the final
  `hours * 60 + minutes` u32 arithmetic is modelled with an explicit
  `% 4294967296`, far from being reached by any realistic duration).
-/

/- Propositional equality on `Except` values is decidable componentwise (used
to evaluate the embedded operations on concrete inputs). -/
deriving instance DecidableEq for Except

namespace DataCollection

/-! ## Document-tree model (the `select` crate's parsed document) -/

inductive Html where
  | elem (tag : String) (attrs : List (String × String)) (children : List Html)
  | text (s : String)
deriving Repr

mutual

/-- Descendants of a node in document order (pre-order, excluding the node
itself): the traversal order of `select`'s `Node::find`. -/
def descendants : Html → List Html
  | .text _ => []
  | .elem _ _ cs => descList cs

def descList : List Html → List Html
  | [] => []
  | c :: cs => c :: descendants c ++ descList cs

end

mutual

/-- Concatenated text content of a node, as `select`'s `Node::text`. -/
def textOf : Html → String
  | .text s => s
  | .elem _ _ cs => textOfList cs

def textOfList : List Html → String
  | [] => ""
  | c :: cs => textOf c ++ textOfList cs

end

/-- Tag name of an element node; `none` for a text node (select's `Node::name`). -/
def tagOf : Html → Option String
  | .elem t _ _ => some t
  | .text _ => none

/-- Attribute lookup, as `Node::attr`. -/
def attrOf (n : Html) (key : String) : Option String :=
  match n with
  | .elem _ attrs _ => (attrs.find? (fun kv => kv.1 = key)).map (fun kv => kv.2)
  | .text _ => none

/-- The `Name(tag)` predicate of the `select` crate. -/
def isTag (t : String) (n : Html) : Bool := tagOf n = some t

/-- The `Class(c)` predicate of the `select` crate: the `class` attribute,
split on whitespace, contains the name. -/
def hasClass (c : String) (n : Html) : Bool :=
  match attrOf n "class" with
  | some s => (s.split Char.isWhitespace).contains c
  | none => false

/-- All matches of `node.find(Name(t))` in document order. -/
def findTag (t : String) (n : Html) : List Html := (descendants n).filter (isTag t)

/-- All matches of `node.find(Class(c))` in document order. -/
def findClass (c : String) (n : Html) : List Html := (descendants n).filter (hasClass c)

/-- Direct children, as `Node::children()`. -/
def childrenOf : Html → List Html
  | .elem _ _ cs => cs
  | .text _ => []

/-! ## Outcome of fallible Rust code

`ok`/`err` are the two arms of `Result`; `panic` models a Rust panic
(`unwrap`, `expect`, `panic!`), which terminates the process instead of
returning an error value to the caller. -/

inductive RResult (α : Type) where
  | ok (val : α)
  | err (msg : String)
  | panic (msg : String)
deriving Repr, DecidableEq

/-! ## JSON model (`serde_json::Value`) -/

/-- A `serde_json` number: the crate stores unsigned integers, negative
integers and floats in distinct arms, and `as_u64` succeeds only on the
unsigned-integer arm.  `uint` carries integers in u64 range (guaranteed by the
JSON parser); floats are modelled as exact rationals. -/
inductive JNum where
  | uint (n : Nat)
  | int (z : Int)
  | float (q : ℚ)
deriving Repr, DecidableEq

inductive Json where
  | null
  | bool (b : Bool)
  | num (n : JNum)
  | str (s : String)
  | arr (elems : List Json)
  | obj (fields : List (String × Json))
deriving Repr

/-- Numeric value of a JSON number when read as an `f64`. -/
def JNum.toRat : JNum → ℚ
  | .uint n => n
  | .int z => z
  | .float q => q

/-- `Value::as_u64`: succeeds exactly on the unsigned-integer arm. -/
def Json.asU64 : Json → Option Nat
  | .num (.uint n) => some n
  | _ => none

/-- `Value::get(key)`: field lookup on objects, `None` on everything else. -/
def jsonGet (j : Json) (key : String) : Option Json :=
  match j with
  | .obj fields => (fields.find? (fun kv => kv.1 = key)).map (fun kv => kv.2)
  | _ => none

/-! ## Data model (structs and enums of recipes/mod.rs) -/

/-- Struct `Nutrient`: unit label, display label, quantity and percent daily
value (both `f64`, modelled as ℚ). -/
structure Nutrient where
  unit : String
  label : String
  quantity : ℚ
  daily : ℚ
deriving Repr, DecidableEq

/-- Struct `Macros`: the fixed set of 29 named `Nutrient` slots. -/
structure Macros where
  PROCNT : Nutrient
  FAT : Nutrient
  CHOCDF : Nutrient
  ENERC_KCAL : Nutrient
  SUGAR : Nutrient
  FIBTG : Nutrient
  CA : Nutrient
  FE : Nutrient
  MG : Nutrient
  P : Nutrient
  K : Nutrient
  NA : Nutrient
  ZN : Nutrient
  VITA_RAE : Nutrient
  TOCPHA : Nutrient
  VITD : Nutrient
  VITC : Nutrient
  THIA : Nutrient
  RIBF : Nutrient
  NIA : Nutrient
  VITB6A : Nutrient
  FOL : Nutrient
  VITB12 : Nutrient
  VITK1 : Nutrient
  CHOLE : Nutrient
  FATRN : Nutrient
  FASAT : Nutrient
  FAMS : Nutrient
  FAPU : Nutrient
deriving Repr, DecidableEq

/-- Enum `Unit` of recipes/mod.rs (named `RUnit` here because `Unit` is taken
by Lean's unit type). -/
inductive RUnit where
  | TABLESPOON
  | TEASPOON
  | CUP
  | LB
  | CONTAINER
deriving Repr, DecidableEq

/-- Struct `Instruction`: optional section label and ordered step texts. -/
structure Instruction where
  section_ : Option String
  steps : List String
deriving Repr, DecidableEq

/-- Struct `Ingredient` (quantity is an `f32` in the source, modelled as ℚ). -/
structure Ingredient where
  name : String
  quantity : ℚ
  units : Option RUnit
  prepped : Option String
deriving Repr, DecidableEq

/-- Struct `Recipe`. -/
structure Recipe where
  img : String
  url : String
  cuisine : String
  category : String
  method : String
  total_time : Nat
  prep_time : Nat
  cook_time : Nat
  name : String
  description : Option String
  instructions : List Instruction
  ingredients : List Ingredient
  video : Option String
  notes : Option String
  servings : Nat
  equiptment : List String
  macros : Option Macros
deriving Repr, DecidableEq

/-- `Recipe::default()` (derived `Default`): empty strings and collections,
zero times and servings, all options `None`. -/
def Recipe.default : Recipe :=
  { img := "", url := "", cuisine := "", category := "", method := ""
    total_time := 0, prep_time := 0, cook_time := 0, name := ""
    description := none, instructions := [], ingredients := []
    video := none, notes := none, servings := 0, equiptment := []
    macros := none }

/-! ## Duration parser (utils.rs, `u32::from_time_str`)

The source compiles the regex
`(?:\s*(\d+)\s*(?:hour|hr)s?)?(?:\s*(\d+)\s*(?:minute|min)s?)?`
and reads the two capture groups.  The matcher below is a direct
recursive-descent transcription of that pattern with the regex crate's
leftmost-first (Perl-like greedy) semantics.  Whitespace and digits are
modelled for the ASCII range actually occurring in recipe pages. -/

/-- Characters matched by the regex class `\s` (ASCII range). -/
def isWsChar (c : Char) : Bool :=
  c = ' ' || c = '\t' || c = '\n' || c = '\r' || c = '\x0b' || c = '\x0c'

/-- Greedy `\s*`. -/
def skipWs : List Char → List Char
  | [] => []
  | c :: cs => if isWsChar c then skipWs cs else c :: cs

/-- Greedy `\d+` / `\d*`: maximal digit prefix and the rest. -/
def takeDigits : List Char → List Char × List Char
  | [] => ([], [])
  | c :: cs =>
    if c.isDigit then
      let r := takeDigits cs
      (c :: r.1, r.2)
    else ([], c :: cs)

/-- Value of a digit string (what `str::parse` computes before its range
check). -/
def digitsToNat (ds : List Char) : Nat :=
  ds.foldl (fun a c => a * 10 + (c.toNat - 48)) 0

/-- Match a literal word, returning the rest of the input. -/
def matchLit : List Char → List Char → Option (List Char)
  | [], s => some s
  | _ :: _, [] => none
  | l :: ls, c :: cs => if c = l then matchLit ls cs else none

/-- One optional group `(?:\s*(\d+)\s*(?:W1|W2)s?)?`: on interior failure the
group matches empty and consumes nothing (the regex engine rolls back);
otherwise it yields the captured digit value and the rest of the input.  `W1`
is tried before `W2`, as in the alternation, and the trailing `s?` is greedy. -/
def tryGroup (w1 w2 : List Char) (s : List Char) : Option Nat × List Char :=
  let s1 := skipWs s
  let d := takeDigits s1
  if d.1.isEmpty then (none, s)
  else
    let s3 := skipWs d.2
    match (matchLit w1 s3).orElse (fun _ => matchLit w2 s3) with
    | none => (none, s)
    | some s4 =>
      match s4 with
      | 's' :: r => (some (digitsToNat d.1), r)
      | _ => (some (digitsToNat d.1), s4)

/-- One attempt of the whole pattern at a fixed position.  Both groups are
optional, so every branch below produces a match: the attempt never fails,
which is why the `some` is unconditional. -/
def regexMatchAt (s : List Char) : Option (Option Nat × Option Nat) :=
  let g1 := tryGroup "hour".data "hr".data s
  let g2 := tryGroup "minute".data "min".data g1.2
  some (g1.1, g2.1)

/-- `Regex::captures`: leftmost-match search.  Positions are tried left to
right and the first successful attempt wins; since an attempt succeeds at
every position (see `regexMatchAt`), the attempt at position 0 is the
result. -/
def regexCaptures (s : String) : Option (Option Nat × Option Nat) :=
  regexMatchAt s.data

def U32MAX : Nat := 4294967295

/-- `caps.get(i).map_or(0, |m| m.as_str().parse::<u32>().expect(msg))`: an
absent group contributes 0; a captured digit string parses as a `u32` or
panics with `msg` (parse fails exactly when the value exceeds `U32MAX`). -/
def capValue (g : Option Nat) (msg : String) : RResult Nat :=
  match g with
  | none => .ok 0
  | some v => if v ≤ U32MAX then .ok v else .panic msg

/-- Hours are read before minutes, then combined as `hours * 60 + minutes`
in u32 arithmetic (wrapping modelled explicitly; unreachable for realistic
durations). -/
def combineCaps (g1 g2 : Option Nat) : RResult Nat :=
  match capValue g1 "Cannot parse hours" with
  | .ok hours =>
    match capValue g2 "Cannot parse minutes" with
    | .ok minutes => .ok ((hours * 60 + minutes) % 4294967296)
    | .err e => .err e
    | .panic p => .panic p
  | .err e => .err e
  | .panic p => .panic p

/-- `u32::from_time_str` of utils.rs. -/
def from_time_str (s : String) : RResult Nat :=
  match regexCaptures s with
  | none => .err "Failed to parse duration"
  | some caps => combineCaps caps.1 caps.2

/-- Hour capture group of the match, for stating properties. -/
def hoursCap (s : String) : Option Nat :=
  (tryGroup "hour".data "hr".data s.data).1

/-- Minute capture group of the match. -/
def minutesCap (s : String) : Option Nat :=
  (tryGroup "minute".data "min".data (tryGroup "hour".data "hr".data s.data).2).1

/-! ## Unit classifier (`Unit::from`) -/

/-- Rust `str::to_lowercase` (ASCII range, the only characters occurring in
unit words). -/
def lowerStr (s : String) : String := ⟨s.data.map Char.toLower⟩

/-- `Unit::from`: lowercases the word and matches it against the accepted
spellings; anything else is the error "Error building Unit enum!". -/
def RUnit.fromStr (s : String) : Except String RUnit :=
  match lowerStr s with
  | "tablespoon" | "tablespoons" => .ok .TABLESPOON
  | "teaspoon" | "teaspoons" => .ok .TEASPOON
  | "cup" | "cups" => .ok .CUP
  | "lb" | "lbs" | "pound" | "pounds" => .ok .LB
  | "container" | "containers" => .ok .CONTAINER
  | _ => .error "Error building Unit enum!"

/-! ## Nutrition decoding (`serde_json::from_value` for `Option<Macros>`)

`Macros` and `Nutrient` carry a plain `#[derive(Deserialize)]` with no serde
attribute: the derived deserializer requires every declared field to be
present in the JSON object, ignores unknown fields, and applies no defaults.
The definitions below model that derived code. -/

/-- Field lookup in a decoded JSON object (objects from `serde_json::from_str`
have unique keys). -/
def getField (fields : List (String × Json)) (key : String) : Option Json :=
  (fields.find? (fun kv => kv.1 = key)).map (fun kv => kv.2)

/-- Deserializing a `String` field. -/
def deserString : Json → Except String String
  | .str s => .ok s
  | _ => .error "invalid type: expected a string"

/-- Deserializing an `f64` field: any JSON number arm is accepted. -/
def deserF64 : Json → Except String ℚ
  | .num n => .ok n.toRat
  | _ => .error "invalid type: expected f64"

/-- Derived deserializer for struct `Nutrient`: all four declared fields are
required, unknown fields are ignored. -/
def deserNutrient : Json → Except String Nutrient
  | .obj fields => do
    let u ← match getField fields "unit" with
      | some v => deserString v
      | none => Except.error "missing field unit"
    let l ← match getField fields "label" with
      | some v => deserString v
      | none => Except.error "missing field label"
    let q ← match getField fields "quantity" with
      | some v => deserF64 v
      | none => Except.error "missing field quantity"
    let d ← match getField fields "daily" with
      | some v => deserF64 v
      | none => Except.error "missing field daily"
    Except.ok ⟨u, l, q, d⟩
  | _ => .error "invalid type: expected struct Nutrient"

/-- One required `Nutrient` slot of struct `Macros`. -/
def reqNutrient (fields : List (String × Json)) (key : String) : Except String Nutrient :=
  match getField fields key with
  | some v => deserNutrient v
  | none => Except.error ("missing field " ++ key)

/-- The 29 slot names of struct `Macros`, in declaration order. -/
def slotKeys : List String :=
  ["PROCNT", "FAT", "CHOCDF", "ENERC_KCAL", "SUGAR", "FIBTG", "CA", "FE", "MG",
   "P", "K", "NA", "ZN", "VITA_RAE", "TOCPHA", "VITD", "VITC", "THIA", "RIBF",
   "NIA", "VITB6A", "FOL", "VITB12", "VITK1", "CHOLE", "FATRN", "FASAT",
   "FAMS", "FAPU"]

/-- Derived deserializer for struct `Macros`: every one of the 29 declared
slots is required (fields are resolved in declaration order, and the first
missing or malformed one aborts with its error); unknown fields are ignored;
no slot is defaulted. -/
def deserMacros : Json → Except String Macros
  | .obj fields => do
    let procnt ← reqNutrient fields "PROCNT"
    let fat ← reqNutrient fields "FAT"
    let chocdf ← reqNutrient fields "CHOCDF"
    let enerc ← reqNutrient fields "ENERC_KCAL"
    let sugar ← reqNutrient fields "SUGAR"
    let fibtg ← reqNutrient fields "FIBTG"
    let ca ← reqNutrient fields "CA"
    let fe ← reqNutrient fields "FE"
    let mg ← reqNutrient fields "MG"
    let p ← reqNutrient fields "P"
    let k ← reqNutrient fields "K"
    let na ← reqNutrient fields "NA"
    let zn ← reqNutrient fields "ZN"
    let vitaRae ← reqNutrient fields "VITA_RAE"
    let tocpha ← reqNutrient fields "TOCPHA"
    let vitd ← reqNutrient fields "VITD"
    let vitc ← reqNutrient fields "VITC"
    let thia ← reqNutrient fields "THIA"
    let ribf ← reqNutrient fields "RIBF"
    let nia ← reqNutrient fields "NIA"
    let vitb6a ← reqNutrient fields "VITB6A"
    let fol ← reqNutrient fields "FOL"
    let vitb12 ← reqNutrient fields "VITB12"
    let vitk1 ← reqNutrient fields "VITK1"
    let chole ← reqNutrient fields "CHOLE"
    let fatrn ← reqNutrient fields "FATRN"
    let fasat ← reqNutrient fields "FASAT"
    let fams ← reqNutrient fields "FAMS"
    let fapu ← reqNutrient fields "FAPU"
    Except.ok ⟨procnt, fat, chocdf, enerc, sugar, fibtg, ca, fe, mg, p, k, na,
      zn, vitaRae, tocpha, vitd, vitc, thia, ribf, nia, vitb6a, fol, vitb12,
      vitk1, chole, fatrn, fasat, fams, fapu⟩
  | _ => .error "invalid type: expected struct Macros"

/-- `serde_json::from_value::<Option<Macros>>`: JSON null becomes `None`,
anything else deserializes as a `Macros`. -/
def deserOptMacros : Json → Except String (Option Macros)
  | .null => .ok none
  | j => (deserMacros j).map some

/-! ## Nutrition normalization (`Macros::normalize_by_servings`) -/

/-- In-place division of one nutrient by the serving count (`servings as f64`
is the exact cast for the values concerned). -/
def Nutrient.divByServings (n : Nutrient) (servings : Nat) : Nutrient :=
  { n with quantity := n.quantity / (servings : ℚ), daily := n.daily / (servings : ℚ) }

/-- `Macros::normalize_by_servings`: the Rust method collects a mutable
reference to each of the 29 slots and divides its quantity and daily value by
the serving count; modelled as the same update applied to every field. -/
def Macros.normalize_by_servings (m : Macros) (servings : Nat) : Macros :=
  { PROCNT := m.PROCNT.divByServings servings
    FAT := m.FAT.divByServings servings
    CHOCDF := m.CHOCDF.divByServings servings
    ENERC_KCAL := m.ENERC_KCAL.divByServings servings
    SUGAR := m.SUGAR.divByServings servings
    FIBTG := m.FIBTG.divByServings servings
    CA := m.CA.divByServings servings
    FE := m.FE.divByServings servings
    MG := m.MG.divByServings servings
    P := m.P.divByServings servings
    K := m.K.divByServings servings
    NA := m.NA.divByServings servings
    ZN := m.ZN.divByServings servings
    VITA_RAE := m.VITA_RAE.divByServings servings
    TOCPHA := m.TOCPHA.divByServings servings
    VITD := m.VITD.divByServings servings
    VITC := m.VITC.divByServings servings
    THIA := m.THIA.divByServings servings
    RIBF := m.RIBF.divByServings servings
    NIA := m.NIA.divByServings servings
    VITB6A := m.VITB6A.divByServings servings
    FOL := m.FOL.divByServings servings
    VITB12 := m.VITB12.divByServings servings
    VITK1 := m.VITK1.divByServings servings
    CHOLE := m.CHOLE.divByServings servings
    FATRN := m.FATRN.divByServings servings
    FASAT := m.FASAT.divByServings servings
    FAMS := m.FAMS.divByServings servings
    FAPU := m.FAPU.divByServings servings }

/-- The 29 slots of a `Macros` in declaration order (the same order as the
vector built inside `normalize_by_servings`). -/
def Macros.slots (m : Macros) : List Nutrient :=
  [m.PROCNT, m.FAT, m.CHOCDF, m.ENERC_KCAL, m.SUGAR, m.FIBTG, m.CA, m.FE,
   m.MG, m.P, m.K, m.NA, m.ZN, m.VITA_RAE, m.TOCPHA, m.VITD, m.VITC, m.THIA,
   m.RIBF, m.NIA, m.VITB6A, m.FOL, m.VITB12, m.VITK1, m.CHOLE, m.FATRN,
   m.FASAT, m.FAMS, m.FAPU]

/-! ## Nutrition extraction (`Recipe::get_macros`, decoded-JSON stage)

Lines 583-595 of recipes/mod.rs: the part of `get_macros` that runs after the
captured script text has been decoded into a JSON value.  Reads the
"nutrients" and "servings" fields; if either is absent the recipe gets no
macros and the function succeeds; servings is read with
`as_u64().expect(...)` (a panic when it is not an unsigned integer); the
nutrients value then deserializes into `Option<Macros>` (a returned error on
failure, propagated by `?`), and a present `Macros` is normalized by the
serving count. -/

def Recipe.get_macros_core (r : Recipe) (json_value : Json) : RResult Recipe :=
  match jsonGet json_value "nutrients", jsonGet json_value "servings" with
  | some nutrientsV, some servingsV =>
    match servingsV.asU64 with
    | none => .panic "Failed to parse servings to u64"
    | some servings =>
      match deserOptMacros nutrientsV with
      | .error e => .err e
      | .ok (some m) =>
        .ok { r with servings := servings, macros := some (m.normalize_by_servings servings) }
      | .ok none => .ok { r with servings := servings, macros := none }
  | _, _ => .ok { r with macros := none }

/-! ## Ingredient merge (`Recipe::add_ingredients`) -/

/-- One iteration of the `add_ingredients` loop: `iter_mut().find` locates the
first existing entry with the same name and adds the new quantity to it
(leaving its units and preparation note untouched); otherwise the new entry is
pushed at the end. -/
def addOne (ings : List Ingredient) (newIng : Ingredient) : List Ingredient :=
  match ings with
  | [] => [newIng]
  | e :: rest =>
    if e.name = newIng.name then
      { e with quantity := e.quantity + newIng.quantity } :: rest
    else
      e :: addOne rest newIng

/-- `Recipe::add_ingredients` on the ingredient collection. -/
def add_ingredients (ings : List Ingredient) (newIngs : List Ingredient) : List Ingredient :=
  newIngs.foldl addOne ings

/-! ## Ingredient extraction (`Recipe::parse_ingredients`) -/

/-- Rust `f32` parsing for the plain decimal literals occurring in
`data-amount` attributes: optional sign, integer digits, optional fractional
digits, at least one digit overall (exponent, inf and nan forms do not occur
in the modelled data; f32 rounding of exactly-representable values like 1.5
is the identity). -/
def parseF32 (s : String) : Option ℚ :=
  let signSplit : Bool × List Char :=
    match s.data with
    | '-' :: r => (true, r)
    | '+' :: r => (false, r)
    | r => (false, r)
  let ip := takeDigits signSplit.2
  match ip.2 with
  | [] =>
    if ip.1.isEmpty then none
    else some (if signSplit.1 then -(digitsToNat ip.1 : ℚ) else (digitsToNat ip.1 : ℚ))
  | '.' :: r =>
    let fp := takeDigits r
    if fp.2.isEmpty && (ip.1.isEmpty = false || fp.1.isEmpty = false) then
      let v : ℚ := (digitsToNat ip.1 : ℚ) + (digitsToNat fp.1 : ℚ) / ((10 : ℚ) ^ fp.1.length)
      some (if signSplit.1 then -v else v)
    else none
  | _ => none

/-- Name resolution for one ingredient list item: the first `strong`
descendant's text, else the first `b` descendant's text. -/
def ingredient_name (item : Html) : Option String :=
  match (findTag "strong" item).head? with
  | some n => some (textOf n)
  | none => (findTag "b" item).head?.map textOf

/-- The body of the `for ingredient in list.find(Name("li"))` loop of
`parse_ingredients`: resolves the name (a returned error naming the recipe URL
and the raw item text when absent), then the second `span` descendant if any
(its `data-amount` parsed with `.unwrap()` — a panic — when present directly,
else read from a nested span with `?`-propagated errors), the unit (a failed
classification silently becomes `None`) and the preparation note. -/
def parse_ingredient_item (url : String) (item : Html) : RResult Ingredient :=
  match ingredient_name item with
  | none =>
    .err ("Error building ingredients for: " ++ url ++ ". No ingredient name found:"
      ++ textOf item ++ " ")
  | some name =>
    match (findTag "span" item)[1]? with
    | some span =>
      let qres : RResult ℚ :=
        match attrOf span "data-amount" with
        | some q =>
          match parseF32 q with
          | some v => .ok v
          | none => .panic "called Result::unwrap() on an Err value"
        | none =>
          match (findTag "span" span).head? with
          | none => .err "Could not parse inner span"
          | some inner =>
            match attrOf inner "data-amount" with
            | none => .err "Could not parse inner span"
            | some q =>
              match parseF32 q with
              | some v => .ok v
              | none => .err "invalid float literal"
      match qres with
      | .ok quantity =>
        let units := (attrOf span "data-unit").bind (fun u =>
          match RUnit.fromStr u with
          | .ok v => some v
          | .error _ => none)
        let prepped := (findTag "em" item).head?.map textOf
        .ok ⟨name, quantity, units, prepped⟩
      | .err e => .err e
      | .panic p => .panic p
    | none =>
      let prepped := (findTag "em" item).head?.map textOf
      .ok ⟨name, 0, none, prepped⟩

/-- The `parse_ingredients` loop over the list items: the first failing item
aborts the whole function. -/
def parse_ingredient_items (url : String) : List Html → RResult (List Ingredient)
  | [] => .ok []
  | li :: rest =>
    match parse_ingredient_item url li with
    | .ok i =>
      match parse_ingredient_items url rest with
      | .ok is => .ok (i :: is)
      | .err e => .err e
      | .panic p => .panic p
    | .err e => .err e
    | .panic p => .panic p

/-- `Recipe::parse_ingredients`: parse every `li` of the list landmark, then
merge the collected entries into the recipe with `add_ingredients`. -/
def Recipe.parse_ingredients (r : Recipe) (list : Html) : RResult Recipe :=
  match parse_ingredient_items r.url (findTag "li" list) with
  | .ok ings => .ok { r with ingredients := add_ingredients r.ingredients ings }
  | .err e => .err e
  | .panic p => .panic p

/-! ## Instruction extraction (`Recipe::parse_instructions`) -/

/-- Rust `str::trim_end_matches(":")`: repeatedly removes the suffix ":",
i.e. drops every trailing colon. -/
def stripTrailingColons (s : String) : String :=
  ⟨(s.data.reverse.dropWhile (fun c => c = ':')).reverse⟩

/-- `Recipe::parse_instructions`: collects the `h4` headings, takes the second
`div` descendant (`.nth(1).expect(...)` — a panic when absent) and its direct
`ol` children; exactly one list yields a single unnamed group of its `li`
texts (the single element is taken with `pop().expect(...)`, i.e. from the
back); otherwise headings and lists are zipped positionally, each heading
losing its trailing colons. -/
def parse_instructions (node : Html) : RResult (List Instruction) :=
  let h4_blocks := findTag "h4" node
  match (findTag "div" node)[1]? with
  | none => .panic "Could not find nth child in parse instructions"
  | some d =>
    let ol_blocks := (childrenOf d).filter (isTag "ol")
    if ol_blocks.length = 1 then
      match ol_blocks.getLast? with
      | some ol => .ok [⟨none, (findTag "li" ol).map textOf⟩]
      | none => .panic "Ol blocks failed to pop the element"
    else
      .ok ((h4_blocks.zip ol_blocks).map (fun p =>
        ⟨some (stripTrailingColons (textOf p.1)), (findTag "li" p.2).map textOf⟩))

/-! ## Header extraction (`Recipe::parse_header`) -/

/-- `Recipe::parse_header`: the recipe name is the first `h2` descendant's
text (`.next().unwrap()` — a panic when absent), the total time the first
`tasty-recipes-total-time` element's text (again `unwrap`), converted with
`u32::from_time_str`; a returned duration error becomes
`panic!("{url}: {e}")`. -/
def Recipe.parse_header (r : Recipe) (header : Html) : RResult Recipe :=
  match (findTag "h2" header).head? with
  | none => .panic "called Option::unwrap() on a None value"
  | some h2 =>
    match (findClass "tasty-recipes-total-time" header).head? with
    | none => .panic "called Option::unwrap() on a None value"
    | some t =>
      match from_time_str (textOf t) with
      | .ok total => .ok { r with name := textOf h2, total_time := total }
      | .err e => .panic (r.url ++ ": " ++ e)
      | .panic p => .panic p

/-! ## Nutrition iframe resolution (inside `Recipe::parse_recipe`)

Lines 376-381 of recipes/mod.rs: the first `iframe` descendant of the body
whose `title` attribute is "nutritional information" supplies, through its
`data-l-src` attribute, the URL handed to `get_macros` — always as
`format!("https:{}", url)`, i.e. with the literal string "https:" prepended
unconditionally. -/

def isNutritionIframe (n : Html) : Bool :=
  isTag "iframe" n && attrOf n "title" = some "nutritional information"

def nutrition_fetch_url (body : Html) : Option String :=
  (((descendants body).filter isNutritionIframe).head?.bind
    (fun fr => attrOf fr "data-l-src")).map (fun u => "https:" ++ u)

/-! ## Concrete documents and values used to exercise the definitions -/

/-- A header landmark with no `h2` heading (the total-time element is
present). -/
def headerNoH2 : Html :=
  .elem "header" []
    [.elem "p" [] [.text "title missing"],
     .elem "span" [("class", "tasty-recipes-total-time")] [.text "1 hour"]]

/-- An instructions landmark with only one `div` descendant, so that
`.nth(1)` finds nothing. -/
def instrNoSecondDiv : Html :=
  .elem "section" [("class", "tasty-recipes-instructions")]
    [.elem "div" [] [.elem "ol" [] [.elem "li" [] [.text "step one"]]]]

/-- An ingredient list item with neither a `strong` nor a `b` descendant. -/
def liNoName : Html :=
  .elem "li" [] [.text "2 cups of something"]

/-- List-item element with the given text. -/
def liOf (s : String) : Html := .elem "li" [] [.text s]

/-- An instructions landmark whose second `div` contains exactly one ordered
list. -/
def instrOneOl : Html :=
  .elem "section" [("class", "tasty-recipes-instructions")]
    [.elem "div" [] [.text "buttons"],
     .elem "div" [] [.elem "ol" [] [liOf "mix", liOf "bake"]]]

/-- An instructions landmark with two `h4` headings and two ordered lists (of
3 and 4 items) in its second `div`. -/
def instrTwoSections : Html :=
  .elem "section" [("class", "tasty-recipes-instructions")]
    [.elem "h4" [] [.text "For the sauce:"],
     .elem "h4" [] [.text "Assembly"],
     .elem "div" [] [.text "buttons"],
     .elem "div" []
       [.elem "ol" [] [liOf "a", liOf "b", liOf "c"],
        .elem "ol" [] [liOf "d", liOf "e", liOf "f", liOf "g"]]]

/-- A recipe body whose nutrition iframe carries an already-absolute URL in
`data-l-src`. -/
def nutritionBodyAbs : Html :=
  .elem "div" []
    [.elem "iframe"
      [("title", "nutritional information"), ("data-l-src", "https://host/x")] []]

/-- A recipe body whose nutrition iframe carries a scheme-relative URL. -/
def nutritionBodyRel : Html :=
  .elem "div" []
    [.elem "iframe"
      [("title", "nutritional information"), ("data-l-src", "//host/y")] []]

/-! ## Helper lemmas -/

/-- `capValue` either contributes the captured value (0 when the group is
absent) or panics with its message. -/
theorem capValue_cases (g : Option Nat) (msg : String) :
    capValue g msg = .ok (g.getD 0) ∨ capValue g msg = .panic msg := by
  rcases g with _ | v
  · exact Or.inl rfl
  · by_cases hv : v ≤ U32MAX
    · exact Or.inl (by simp [capValue, hv])
    · exact Or.inr (by simp [capValue, hv])

/-- `combineCaps` never produces a returned error: each capture contributes a
value or a panic. -/
theorem combineCaps_ne_err (g1 g2 : Option Nat) (e : String) :
    combineCaps g1 g2 ≠ .err e := by
  rcases capValue_cases g1 "Cannot parse hours" with h1 | h1 <;>
    rcases capValue_cases g2 "Cannot parse minutes" with h2 | h2 <;>
    simp [combineCaps, h1, h2]

/-- An `ok` outcome of `combineCaps` is the sum of the two contributions in
u32 arithmetic. -/
theorem combineCaps_ok (g1 g2 : Option Nat) (n : Nat)
    (h : combineCaps g1 g2 = .ok n) :
    n = (g1.getD 0 * 60 + g2.getD 0) % 4294967296 := by
  rcases capValue_cases g1 "Cannot parse hours" with h1 | h1 <;>
    rcases capValue_cases g2 "Cannot parse minutes" with h2 | h2 <;>
    rw [combineCaps, h1] at h <;> try rw [h2] at h
  · exact (RResult.ok.injEq _ _).mp h.symm
  all_goals cases h

/-! ## Claim C1 -/

/-- Claim C1 (code bug, evaluated at the failing inputs): the claim states
that every required sub-extraction failure reaches the caller as a single
returned error carrying the recipe URL and that the core never terminates the
process on a per-recipe failure.  The code instead panics — terminating the
process — when the header lacks its `h2` heading (`unwrap`), when the
instructions landmark lacks a second `div` (`expect`), and when a duration
digit group fails to parse as u32 (`expect` inside `from_time_str`); only the
missing-ingredient-name failure is returned as an error carrying the URL, as
the last conjunct shows by contrast. -/
theorem claim1_required_failures_panic :
    Recipe.parse_header { Recipe.default with url := "https://site/recipe" } headerNoH2
      = .panic "called Option::unwrap() on a None value"
    ∧ parse_instructions instrNoSecondDiv
      = .panic "Could not find nth child in parse instructions"
    ∧ from_time_str "99999999999 hours" = .panic "Cannot parse hours"
    ∧ parse_ingredient_item "https://site/recipe" liNoName
      = .err ("Error building ingredients for: https://site/recipe. "
          ++ "No ingredient name found:2 cups of something ") := by
  refine ⟨by decide, by decide, by decide, by decide⟩

/-! ## Claim C3 -/

/-- Claim C3 (counterexample): the claim states that unparseable non-duration
text yields a failure; the code returns `Ok(0)` on such text, because the
all-optional regex produces an empty match. -/
theorem claim3_counterexample :
    from_time_str "foobar" = .ok 0 ∧ from_time_str "no duration here" = .ok 0 := by
  exact ⟨by decide, by decide⟩

/-- Claim C3 (amended): the parser returns an error only if the regex fails
to match; since both groups of the pattern are optional, every input admits a
(possibly empty) match, so the parser never returns an error — a string where
both groups are absent yields `Ok(0)` (in particular the empty and
whitespace-only strings), and non-duration text yields `Ok(0)` rather than a
failure. -/
theorem claim3_amended_never_err :
    (∀ s e : String, from_time_str s ≠ .err e)
    ∧ from_time_str "" = .ok 0
    ∧ from_time_str " \t " = .ok 0 := by
  refine ⟨fun s e => ?_, by decide, by decide⟩
  have h : from_time_str s = combineCaps (hoursCap s) (minutesCap s) := rfl
  rw [h]
  exact combineCaps_ne_err _ _ e

/-- Claim C3 (witness): the amended theorem applied at the concrete
non-duration input "foobar". -/
theorem claim3_witness : from_time_str "foobar" ≠ .err "Failed to parse duration" :=
  claim3_amended_never_err.1 "foobar" "Failed to parse duration"

/-! ## Claim C9 -/

/-- Claim C9: the duration parser maps "1 hour 30 minutes" to 90, "45
minutes" to 45, "2 hrs" to 120 and the empty string to 0; and whenever it
succeeds (and the combination does not exceed u32 range) its output is
hours × 60 + minutes for the matched hour and minute capture groups. -/
theorem claim9_duration_examples :
    from_time_str "1 hour 30 minutes" = .ok 90
    ∧ from_time_str "45 minutes" = .ok 45
    ∧ from_time_str "2 hrs" = .ok 120
    ∧ from_time_str "" = .ok 0
    ∧ (∀ (s : String) (n : Nat), from_time_str s = .ok n →
        (hoursCap s).getD 0 * 60 + (minutesCap s).getD 0 ≤ U32MAX →
        n = (hoursCap s).getD 0 * 60 + (minutesCap s).getD 0) := by
  refine ⟨by decide, by decide, by decide, by decide, fun s n h hle => ?_⟩
  have h' : combineCaps (hoursCap s) (minutesCap s) = .ok n := h
  rw [combineCaps_ok _ _ _ h']
  exact Nat.mod_eq_of_lt (lt_of_le_of_lt hle (by norm_num [U32MAX]))

/-- Claim C9 (witness): the general output law applied at the concrete input
"2 hrs". -/
theorem claim9_witness :
    (120 : Nat) = (hoursCap "2 hrs").getD 0 * 60 + (minutesCap "2 hrs").getD 0 :=
  claim9_duration_examples.2.2.2.2 "2 hrs" 120 (by decide) (by decide)

/-! ## Claim C10 -/

/-- Claim C10: when the nutrition iframe is found and carries a `data-l-src`
attribute with value `u`, the fetch URL is built by unconditionally prepending
the literal "https:" to `u` — with no scheme-relative check — so an already
absolute `u` yields "https:https://host/x". -/
theorem claim10_nutrition_url :
    (∀ (body fr : Html) (u : String),
      ((descendants body).filter isNutritionIframe).head? = some fr →
      attrOf fr "data-l-src" = some u →
      nutrition_fetch_url body = some ("https:" ++ u))
    ∧ nutrition_fetch_url nutritionBodyAbs = some "https:https://host/x" := by
  refine ⟨fun body fr u hfr hu => ?_, by decide⟩
  simp [nutrition_fetch_url, hfr, hu]

/-- Claim C10 (witness): the general prepending law applied to the concrete
body whose iframe holds the scheme-relative URL "//host/y". -/
theorem claim10_witness :
    nutrition_fetch_url nutritionBodyRel = some ("https:" ++ "//host/y") :=
  claim10_nutrition_url.1 nutritionBodyRel _ "//host/y" rfl rfl

/-! ## Claim C4 -/

/-- Claim C4: adding ingredients with a name already present merges by adding
the new quantity to the existing entry (its units and preparation note are
untouched, and the entries around it keep their order), while a fresh name is
appended at the end; concretely, quantities 1.5 and 2.0 under one name merge
into 3.5 and a distinct name stays a separate entry, in first-seen order. -/
theorem claim4_ingredient_merge :
    (add_ingredients []
        [⟨"chicken", 1.5, none, none⟩, ⟨"salt", 1, some .CUP, some "fine"⟩,
         ⟨"chicken", 2, some .LB, some "diced"⟩]
      = [⟨"chicken", 3.5, none, none⟩, ⟨"salt", 1, some .CUP, some "fine"⟩])
    ∧ (∀ (pre post : List Ingredient) (e newIng : Ingredient),
        e.name = newIng.name → (∀ x ∈ pre, x.name ≠ newIng.name) →
        addOne (pre ++ e :: post) newIng
          = pre ++ { e with quantity := e.quantity + newIng.quantity } :: post)
    ∧ (∀ (ings : List Ingredient) (newIng : Ingredient),
        (∀ x ∈ ings, x.name ≠ newIng.name) →
        addOne ings newIng = ings ++ [newIng]) := by
  refine ⟨by norm_num [add_ingredients, addOne], ?_, ?_⟩
  · intro pre post e newIng hname hpre
    induction pre with
    | nil => simp [addOne, hname]
    | cons p rest ih =>
      have hp : p.name ≠ newIng.name := hpre p (List.mem_cons_self p rest)
      simp only [List.cons_append, addOne, if_neg hp]
      exact congrArg (p :: ·) (ih fun x hx => hpre x (List.mem_cons_of_mem p hx))
  · intro ings newIng habs
    induction ings with
    | nil => rfl
    | cons p rest ih =>
      have hp : p.name ≠ newIng.name := habs p (List.mem_cons_self p rest)
      simp only [addOne, if_neg hp, List.cons_append]
      exact congrArg (p :: ·) (ih fun x hx => habs x (List.mem_cons_of_mem p hx))

/-- Claim C4 (witness): the merge law and the append law applied to concrete
single-entry collections. -/
theorem claim4_witness :
    addOne [⟨"flour", 1.5, none, none⟩] ⟨"flour", 2, some .CUP, none⟩
      = [{ (⟨"flour", 1.5, none, none⟩ : Ingredient) with quantity := (1.5 : ℚ) + 2 }]
    ∧ addOne [⟨"flour", 1.5, none, none⟩] ⟨"sugar", 2, none, none⟩
      = [⟨"flour", 1.5, none, none⟩, ⟨"sugar", 2, none, none⟩] := by
  constructor
  · exact claim4_ingredient_merge.2.1 [] [] ⟨"flour", 1.5, none, none⟩ _ rfl (by simp)
  · exact claim4_ingredient_merge.2.2 [⟨"flour", 1.5, none, none⟩] _ (by simp)

/-! ## Claim C8 -/

/-- The five-word vocabulary named by the spec. -/
def specUnitVocabulary : List String :=
  ["tablespoon", "teaspoon", "cup", "pound", "container"]

/-- The words the classifier actually accepts (after lowercasing). -/
def acceptedUnitWords : List String :=
  ["tablespoon", "tablespoons", "teaspoon", "teaspoons", "cup", "cups",
   "lb", "lbs", "pound", "pounds", "container", "containers"]

/-- Claim C8 (counterexample): the claim states that every unit word outside
the vocabulary {tablespoon, teaspoon, cup, pound, container} is reported
unrecognized; but "tablespoons" (not in that vocabulary) is accepted, as are
"lb" and the other plural/case variants. -/
theorem claim8_counterexample :
    RUnit.fromStr "tablespoons" = .ok .TABLESPOON
    ∧ "tablespoons" ∉ specUnitVocabulary
    ∧ RUnit.fromStr "lb" = .ok .LB
    ∧ "lb" ∉ specUnitVocabulary := by
  refine ⟨by decide, by decide, by decide, by decide⟩

/-- Claim C8 (amended): the classifier recognizes, case-insensitively,
exactly the singular and plural spellings of the five unit codes (with lb/lbs
as spellings of pound); any other word is rejected with an error, and during
ingredient extraction a rejected unit word degrades to an unset unit on an
otherwise successfully parsed item. -/
theorem claim8_amended :
    (∀ s : String, (∃ u, RUnit.fromStr s = .ok u) ↔ lowerStr s ∈ acceptedUnitWords)
    ∧ (∀ (url q uw e nm : String) (item span : Html) (v : ℚ),
        ingredient_name item = some nm →
        (findTag "span" item)[1]? = some span →
        attrOf span "data-amount" = some q → parseF32 q = some v →
        attrOf span "data-unit" = some uw → RUnit.fromStr uw = .error e →
        parse_ingredient_item url item
          = .ok ⟨nm, v, none, (findTag "em" item).head?.map textOf⟩) := by
  constructor
  · intro s
    constructor
    · rintro ⟨u, hu⟩
      unfold RUnit.fromStr at hu
      split at hu <;> simp_all [acceptedUnitWords]
    · intro h
      simp only [acceptedUnitWords, List.mem_cons, List.not_mem_nil, or_false] at h
      rcases h with h | h | h | h | h | h | h | h | h | h | h | h
      · exact ⟨.TABLESPOON, by simp [RUnit.fromStr, h]⟩
      · exact ⟨.TABLESPOON, by simp [RUnit.fromStr, h]⟩
      · exact ⟨.TEASPOON, by simp [RUnit.fromStr, h]⟩
      · exact ⟨.TEASPOON, by simp [RUnit.fromStr, h]⟩
      · exact ⟨.CUP, by simp [RUnit.fromStr, h]⟩
      · exact ⟨.CUP, by simp [RUnit.fromStr, h]⟩
      · exact ⟨.LB, by simp [RUnit.fromStr, h]⟩
      · exact ⟨.LB, by simp [RUnit.fromStr, h]⟩
      · exact ⟨.LB, by simp [RUnit.fromStr, h]⟩
      · exact ⟨.LB, by simp [RUnit.fromStr, h]⟩
      · exact ⟨.CONTAINER, by simp [RUnit.fromStr, h]⟩
      · exact ⟨.CONTAINER, by simp [RUnit.fromStr, h]⟩
  · intro url q uw e nm item span v hnm hspan hq hv huw hfrom
    simp [parse_ingredient_item, hnm, hspan, hq, hv, huw, hfrom]

/-- Claim C8 (witness): the classifier law at the concrete rejected word
"Tbsp", and the degradation law at a concrete list item carrying that unit
word. -/
theorem claim8_witness :
    parse_ingredient_item "https://site/r"
        (.elem "li" []
          [.elem "strong" [] [.text "Butter"],
           .elem "span" [] [.text "box"],
           .elem "span" [("data-amount", "1.5"), ("data-unit", "Tbsp")] [.text "1.5 Tbsp"]])
      = .ok ⟨"Butter", 1.5, none, none⟩ := by
  have h := claim8_amended.2 "https://site/r" "1.5" "Tbsp"
    "Error building Unit enum!" "Butter"
    (.elem "li" []
      [.elem "strong" [] [.text "Butter"],
       .elem "span" [] [.text "box"],
       .elem "span" [("data-amount", "1.5"), ("data-unit", "Tbsp")] [.text "1.5 Tbsp"]])
    (.elem "span" [("data-amount", "1.5"), ("data-unit", "Tbsp")] [.text "1.5 Tbsp"])
    1.5 rfl rfl rfl
    (by simp +decide [parseF32, takeDigits, digitsToNat]; norm_num)
    rfl (by decide)
  exact h.trans rfl

/-! ## Claim C5 -/

/-- Claim C5: when the second top-level `div` of the instructions landmark is
found, exactly one direct ordered-list child yields a single unnamed group
with that list's item texts in document order; any other number of lists
yields one named group per positional heading/list pair (`zip` stops at the
shorter sequence, silently dropping the unmatched tail), the label being the
heading text with its trailing colon stripped. -/
theorem claim5_instruction_extraction :
    ∀ (node d : Html), (findTag "div" node)[1]? = some d →
      (∀ ol : Html, (childrenOf d).filter (isTag "ol") = [ol] →
        parse_instructions node = .ok [⟨none, (findTag "li" ol).map textOf⟩])
      ∧ (((childrenOf d).filter (isTag "ol")).length ≠ 1 →
        parse_instructions node
          = .ok (((findTag "h4" node).zip ((childrenOf d).filter (isTag "ol"))).map
              (fun p => ⟨some (stripTrailingColons (textOf p.1)),
                         (findTag "li" p.2).map textOf⟩))) := by
  intro node d hd
  constructor
  · intro ol hol
    simp [parse_instructions, hd, hol]
  · intro hne
    simp [parse_instructions, hd, hne]

/-- Claim C5 (witness): the single-list law on a landmark with one ordered
list of two steps, and the pairing law on a landmark with two headings and
two ordered lists of three and four steps. -/
theorem claim5_witness :
    parse_instructions instrOneOl = .ok [⟨none, ["mix", "bake"]⟩]
    ∧ parse_instructions instrTwoSections
      = .ok [⟨some "For the sauce", ["a", "b", "c"]⟩,
             ⟨some "Assembly", ["d", "e", "f", "g"]⟩] := by
  constructor
  · exact ((claim5_instruction_extraction instrOneOl _ rfl).1 _ rfl).trans (by decide)
  · exact ((claim5_instruction_extraction instrTwoSections _ rfl).2 (by decide)).trans (by decide)

/-! ## Claim C7 -/

/-- Claim C7: if the decoded nutrition JSON lacks a "nutrients" field or a
"servings" field, the recipe's macros are left unset and the function
succeeds with no error; when both are present, a servings value that does not
decode as a non-negative (u64) integer makes the extraction fail (by the
`expect` panic), and one that does never triggers that failure. -/
theorem claim7_nutrition_fields :
    (∀ (r : Recipe) (j : Json),
      jsonGet j "nutrients" = none ∨ jsonGet j "servings" = none →
      r.get_macros_core j = .ok { r with macros := none })
    ∧ (∀ (r : Recipe) (j : Json) (nv sv : Json),
      jsonGet j "nutrients" = some nv → jsonGet j "servings" = some sv →
      sv.asU64 = none →
      r.get_macros_core j = .panic "Failed to parse servings to u64")
    ∧ (∀ (r : Recipe) (j : Json) (nv sv : Json) (n : Nat),
      jsonGet j "nutrients" = some nv → jsonGet j "servings" = some sv →
      sv.asU64 = some n →
      r.get_macros_core j ≠ .panic "Failed to parse servings to u64") := by
  refine ⟨fun r j h => ?_, fun r j nv sv h1 h2 h3 => ?_, fun r j nv sv n h1 h2 h3 => ?_⟩
  · rcases hn : jsonGet j "nutrients" with _ | nv <;>
      rcases hs : jsonGet j "servings" with _ | sv <;>
      simp_all [Recipe.get_macros_core]
  · simp [Recipe.get_macros_core, h1, h2, h3]
  · simp only [Recipe.get_macros_core, h1, h2, h3]
    rcases hd : deserOptMacros nv with e | mo
    · simp
    · rcases mo with _ | m <;> simp

/-- Claim C7 (witness): the unset law at an object lacking both fields, and
the failure law at an object whose servings value is a JSON float. -/
theorem claim7_witness :
    Recipe.get_macros_core Recipe.default (.obj [("other", .null)])
      = .ok { Recipe.default with macros := none }
    ∧ Recipe.get_macros_core Recipe.default
        (.obj [("nutrients", .null), ("servings", .num (.float 4))])
      = .panic "Failed to parse servings to u64" :=
  ⟨claim7_nutrition_fields.1 Recipe.default _ (Or.inl rfl),
   claim7_nutrition_fields.2.1 Recipe.default _ .null (.num (.float 4)) rfl rfl rfl⟩

/-! ## Claim C6 -/

/-- A sample nutrient with quantity 80 and daily value 10. -/
def nut80 : Nutrient := ⟨"g", "Protein", 80, 10⟩

/-- A sample `Macros` holding `nut80` in every slot. -/
def sampleMacros80 : Macros :=
  ⟨nut80, nut80, nut80, nut80, nut80, nut80, nut80, nut80, nut80, nut80,
   nut80, nut80, nut80, nut80, nut80, nut80, nut80, nut80, nut80, nut80,
   nut80, nut80, nut80, nut80, nut80, nut80, nut80, nut80, nut80⟩

/-- Claim C6: for every `Macros` and servings count s ≥ 1, normalization
divides the quantity and the daily value of every one of the 29 named slots
by s (concretely, a quantity of 80 with servings 4 becomes 20), and applying
the normalization a second time with servings 1 leaves the value unchanged. -/
theorem claim6_normalization :
    ∀ (m : Macros) (s : Nat), 1 ≤ s →
      ((m.normalize_by_servings s).slots
          = m.slots.map (fun n => ⟨n.unit, n.label, n.quantity / (s : ℚ), n.daily / (s : ℚ)⟩))
      ∧ ((m.normalize_by_servings s).normalize_by_servings 1 = m.normalize_by_servings s)
      ∧ (sampleMacros80.normalize_by_servings 4).PROCNT.quantity = 20 := by
  intro m s hs
  refine ⟨rfl, ?_, ?_⟩
  · simp [Macros.normalize_by_servings, Nutrient.divByServings]
  · norm_num [sampleMacros80, nut80, Macros.normalize_by_servings, Nutrient.divByServings]

/-- Claim C6 (witness): the idempotence part applied at the concrete sample
with servings 4. -/
theorem claim6_witness :
    (sampleMacros80.normalize_by_servings 4).normalize_by_servings 1
      = sampleMacros80.normalize_by_servings 4 :=
  (claim6_normalization sampleMacros80 4 (by norm_num)).2.1

/-! ## Claim C2 -/

/-- A fully populated nutrient object as it appears in the nutrition JSON. -/
def sampleNutrientJson : Json :=
  .obj [("unit", .str "g"), ("label", .str "Protein"),
        ("quantity", .num (.uint 80)), ("daily", .num (.uint 10))]

/-- A nutrients object holding `sampleNutrientJson` under every one of the 29
slot names, plus one unknown extra field. -/
def fullNutrientsFields : List (String × Json) :=
  (slotKeys.map (fun k => (k, sampleNutrientJson))) ++ [("UNKNOWN_FIELD", .str "ignored")]

def fullNutrientsJson : Json := .obj fullNutrientsFields

/-- Inverting a successful `Except` bind: the first stage succeeded and the
continuation succeeded on its value. -/
theorem bind_ok_inv {α β : Type} {x : Except String α} {f : α → Except String β} {b : β}
    (h : x >>= f = .ok b) : ∃ a, x = .ok a ∧ f a = .ok b := by
  cases x with
  | error e => simp [Bind.bind, Except.bind] at h
  | ok a => exact ⟨a, rfl, by simpa [Bind.bind, Except.bind] using h⟩

/-- A successfully resolved required slot was present in the object. -/
theorem reqNutrient_isSome {fields : List (String × Json)} {key : String} {n : Nutrient}
    (h : reqNutrient fields key = .ok n) : (getField fields key).isSome = true := by
  unfold reqNutrient at h
  cases hg : getField fields key with
  | none => simp [hg] at h
  | some v => simp [hg]

/-- Claim C2 (counterexample): the claim states that decoding the "nutrients"
field into the fixed `Macros` shape does not fail when named slots are
missing, each missing slot defaulting to a zero nutrient.  The derived
deserializer instead requires every slot: an empty nutrients object fails
with "missing field PROCNT", and through `get_macros` that failure is a
returned error aborting the nutrition extraction. -/
theorem claim2_counterexample :
    deserMacros (Json.obj []) = .error "missing field PROCNT"
    ∧ deserOptMacros (Json.obj []) = .error "missing field PROCNT"
    ∧ Recipe.get_macros_core Recipe.default
        (.obj [("nutrients", .obj []), ("servings", .num (.uint 4))])
      = .err "missing field PROCNT" := by
  exact ⟨rfl, rfl, rfl⟩

/-- Claim C2 (amended): decoding the "nutrients" field into the fixed
`Macros` shape succeeds only if every one of the 29 named slots is present in
the JSON object (so a decode that succeeded had no missing slot — no
defaulting occurs); unknown extra fields are ignored, and an object carrying
all 29 slots decodes to the full record of exactly the present values. -/
theorem claim2_amended :
    (∀ (fields : List (String × Json)) (m : Macros),
      deserMacros (.obj fields) = .ok m →
      ∀ k ∈ slotKeys, (getField fields k).isSome = true)
    ∧ deserMacros fullNutrientsJson = .ok sampleMacros80 := by
  constructor
  · intro fields m h
    simp only [deserMacros] at h
    obtain ⟨a1, e1, h⟩ := bind_ok_inv h
    obtain ⟨a2, e2, h⟩ := bind_ok_inv h
    obtain ⟨a3, e3, h⟩ := bind_ok_inv h
    obtain ⟨a4, e4, h⟩ := bind_ok_inv h
    obtain ⟨a5, e5, h⟩ := bind_ok_inv h
    obtain ⟨a6, e6, h⟩ := bind_ok_inv h
    obtain ⟨a7, e7, h⟩ := bind_ok_inv h
    obtain ⟨a8, e8, h⟩ := bind_ok_inv h
    obtain ⟨a9, e9, h⟩ := bind_ok_inv h
    obtain ⟨a10, e10, h⟩ := bind_ok_inv h
    obtain ⟨a11, e11, h⟩ := bind_ok_inv h
    obtain ⟨a12, e12, h⟩ := bind_ok_inv h
    obtain ⟨a13, e13, h⟩ := bind_ok_inv h
    obtain ⟨a14, e14, h⟩ := bind_ok_inv h
    obtain ⟨a15, e15, h⟩ := bind_ok_inv h
    obtain ⟨a16, e16, h⟩ := bind_ok_inv h
    obtain ⟨a17, e17, h⟩ := bind_ok_inv h
    obtain ⟨a18, e18, h⟩ := bind_ok_inv h
    obtain ⟨a19, e19, h⟩ := bind_ok_inv h
    obtain ⟨a20, e20, h⟩ := bind_ok_inv h
    obtain ⟨a21, e21, h⟩ := bind_ok_inv h
    obtain ⟨a22, e22, h⟩ := bind_ok_inv h
    obtain ⟨a23, e23, h⟩ := bind_ok_inv h
    obtain ⟨a24, e24, h⟩ := bind_ok_inv h
    obtain ⟨a25, e25, h⟩ := bind_ok_inv h
    obtain ⟨a26, e26, h⟩ := bind_ok_inv h
    obtain ⟨a27, e27, h⟩ := bind_ok_inv h
    obtain ⟨a28, e28, h⟩ := bind_ok_inv h
    obtain ⟨a29, e29, h⟩ := bind_ok_inv h
    intro k hk
    simp only [slotKeys, List.mem_cons, List.not_mem_nil, or_false] at hk
    rcases hk with rfl | rfl | rfl | rfl | rfl | rfl | rfl | rfl | rfl | rfl | rfl | rfl | rfl | rfl | rfl | rfl | rfl | rfl | rfl | rfl | rfl | rfl | rfl | rfl | rfl | rfl | rfl | rfl | rfl
    exacts [reqNutrient_isSome e1,
      reqNutrient_isSome e2,
      reqNutrient_isSome e3,
      reqNutrient_isSome e4,
      reqNutrient_isSome e5,
      reqNutrient_isSome e6,
      reqNutrient_isSome e7,
      reqNutrient_isSome e8,
      reqNutrient_isSome e9,
      reqNutrient_isSome e10,
      reqNutrient_isSome e11,
      reqNutrient_isSome e12,
      reqNutrient_isSome e13,
      reqNutrient_isSome e14,
      reqNutrient_isSome e15,
      reqNutrient_isSome e16,
      reqNutrient_isSome e17,
      reqNutrient_isSome e18,
      reqNutrient_isSome e19,
      reqNutrient_isSome e20,
      reqNutrient_isSome e21,
      reqNutrient_isSome e22,
      reqNutrient_isSome e23,
      reqNutrient_isSome e24,
      reqNutrient_isSome e25,
      reqNutrient_isSome e26,
      reqNutrient_isSome e27,
      reqNutrient_isSome e28,
      reqNutrient_isSome e29]
  · rfl

/-- Claim C2 (witness): the presence law applied to the concrete fully
populated nutrients object, at the last slot name. -/
theorem claim2_witness :
    (getField fullNutrientsFields "FAPU").isSome = true :=
  claim2_amended.1 fullNutrientsFields sampleMacros80 rfl "FAPU" (by decide)

end DataCollection
